import Mathlib

/-!
# Verification of the `regenerator` reentrant stream library

This file shallowly embeds `src/regenerator/stream.py` into Lean.

A `Stream` in the Python source wraps a zero-argument `generator_func`; every
traversal (`__iter__`) calls `generator_func()` afresh.  We model one traversal
of a stream by the list of items it produces, and a factory (a stream's
`generator_func`) by a function `Nat → List α` giving the item list produced by
its `k`-th invocation.  A repeatably-iterable source produces the same items on
every invocation.  Python exceptions raised by the code are modelled by
`PyErr`; operations whose traversal can raise return the produced items paired
with an optional error, and operations that can raise at call time return
`Except PyErr _`.
-/

/-- The Python exception types that `stream.py` (and the library functions it
delegates to) can raise, together with the exception message. -/
inductive PyErr where
  | valueError (msg : String)
  | indexError (msg : String)
  | typeError (msg : String)
deriving DecidableEq, Repr

/-- The specification's error taxonomy. -/
inductive ErrCategory where
  | invalidArgument
  | emptyInput
  | indexOutOfRange
  | typeMismatch
deriving DecidableEq, Repr

/-- Classify a raised Python exception into the specification's taxonomy:
`IndexError` is IndexOutOfRange, `TypeError` is TypeMismatch, and a
`ValueError` is EmptyInput when it is the arity-inference failure of
`Stream.unzip` on an empty stream and InvalidArgument otherwise (bad
combinator parameters). -/
def categorize : PyErr → ErrCategory
  | .valueError msg =>
      if msg = "cannot infer length of items from empty stream" then .emptyInput
      else .invalidArgument
  | .indexError _ => .indexOutOfRange
  | .typeError _ => .typeMismatch

/-- A small universe of Python values, enough to talk about Python truthiness
(`filter(None, ...)` keeps the truthy items). -/
inductive PyVal where
  | none
  | bool (b : Bool)
  | int (n : Int)
  | str (s : String)
deriving DecidableEq, Repr

/-- Python truthiness: `None`, `False`, `0` and the empty string are falsy. -/
def pyTruthy : PyVal → Bool
  | .none => false
  | .bool b => b
  | .int n => n != 0
  | .str s => s != ""

/-- A factory (`generator_func`) is repeatably iterable when every invocation
produces the same item list. -/
def Repeatable {α : Type} (F : Nat → List α) : Prop :=
  ∀ i j : Nat, F i = F j

namespace Stream

/-- One traversal of `Stream.filter(func)`:
`return self.from_func(lambda: filter(func, self))`.
Python's builtin `filter(None, it)` keeps the truthy items of `it` (not merely
the non-`None` ones); `filter(f, it)` keeps items where `f(item)` is truthy. -/
def filter (func : Option (PyVal → Bool)) (l : List PyVal) : List PyVal :=
  match func with
  | some f => l.filter f
  | Option.none => l.filter pyTruthy

/-- Fuel-driven recursion behind `chunkList` (structural in the fuel so that
it computes by `rfl`/`decide`).  One fuel unit is spent per group; since each
group consumes at least one item when `k ≥ 1`, fuel equal to the list length
always suffices, and the fuel-exhausted case is unreachable from `chunkList`. -/
def chunkFuel (k : Nat) : Nat → List α → List (List α)
  | _, [] => []
  | 0, _ :: _ => []
  | fuel + 1, x :: xs =>
      if k = 0 then []
      else (x :: xs).take k :: chunkFuel k fuel ((x :: xs).drop k)

/-- The grouping performed by one traversal of `Stream.batch(size)` for a
non-negative `size`: `iter(lambda: tuple(itertools.islice(it, size)), ())`
repeatedly pulls a tuple of up to `size` items from a single iterator over the
upstream stream and stops at the first empty tuple.  Hence groups of `size`
consecutive items with a shorter final group, and for `size = 0` the very
first tuple is `()` so the result is empty. -/
def chunkList (k : Nat) (l : List α) : List (List α) := chunkFuel k l.length l

/-- One traversal of `Stream.batch(size)` with `size : Int` as passed by the
caller.  The method body performs no validation of `size`; a negative `size`
only fails at traversal time, when `itertools.islice(it, size)` raises
`ValueError` on the first pull, before any item is produced. -/
def batch (size : Int) (l : List α) : List (List α) × Option PyErr :=
  if size < 0 then
    ([], some (.valueError "islice stop must be a non-negative integer"))
  else (chunkList size.toNat l, Option.none)

/-- Call-time effect of `Stream.batch(size)`: the method body merely defines a
new `generator_func` and wraps it, raising nothing for any `size`. -/
def batchCallCheck (_size : Int) : Except PyErr Unit := .ok ()

/-- One traversal of `Stream.unbatch()`:
`(subitem for item in self for subitem in item)`. -/
def unbatch (l : List (List α)) : List α := l.flatten

end Stream

/-- The index value passed to `Stream.__getitem__`: a Python `int`, a Python
`slice`, or a value of any other type (carrying its type name, e.g. `"str"`
or `"float"`).  Note that in Python `bool` is a subtype of `int`, so a
boolean index counts as an integer, not as "other". -/
inductive PyIndex where
  | intIdx (i : Int)
  | sliceIdx (start stop step : Option Int)
  | otherIdx (typeName : String)
deriving DecidableEq, Repr

/-- The successful result of `Stream.__getitem__`: for a slice index, a new
lazy stream described by its slice bounds (`self.slice(idx.start, idx.stop,
idx.step)`, no traversal happens); for an integer index, the single item. -/
inductive GetItemResult (α : Type) where
  | sliced (start stop step : Option Int)
  | single (x : α)
deriving DecidableEq, Repr

namespace Stream

/-- `Stream.__getitem__(idx)` over a stream whose traversal produces `l`:
a slice returns a new stream without traversing; a non-`int`, non-`slice`
index raises `TypeError` before any traversal; a negative integer raises
`IndexError('negative indexing not supported')` before any traversal; a
non-negative integer walks the traversal with `enumerate` and returns the
item at position `idx`, raising `IndexError('stream index out of range')`
if the traversal ends first. -/
def getitem (idx : PyIndex) (l : List α) : Except PyErr (GetItemResult α) :=
  match idx with
  | .sliceIdx a b c => .ok (.sliced a b c)
  | .otherIdx typeName =>
      .error (.typeError ("indices must be integers or slices, not " ++ typeName))
  | .intIdx i =>
      if i < 0 then .error (.indexError "negative indexing not supported")
      else
        match l[i.toNat]? with
        | some x => .ok (.single x)
        | Option.none => .error (.indexError "stream index out of range")

/-- The arity-inference step of `Stream.unzip(n)`: when `n` is `None` it is
set to `len(next(iter(self)))`, the length of the first item of a throwaway
traversal; an empty stream raises
`ValueError('cannot infer length of items from empty stream')`. -/
def unzipArity (n : Option Nat) (l : List (List α)) : Except PyErr Nat :=
  match n with
  | some k => .ok k
  | Option.none =>
      match l with
      | [] => .error (.valueError "cannot infer length of items from empty stream")
      | item :: _ => .ok item.length

/-- One traversal of the `i`-th stream returned by `Stream.unzip`
(`select_func(i)` is `(item[i] for item in self)`): items are produced until
the first item whose length is at most `i`, where `item[i]` raises
`IndexError`; positions of an item beyond `i` are never inspected. -/
def selectColTrav (i : Nat) : List (List α) → List α × Option PyErr
  | [] => ([], Option.none)
  | item :: rest =>
      match item[i]? with
      | some x =>
          let t := selectColTrav i rest
          (x :: t.1, t.2)
      | Option.none => ([], some (.indexError "index out of range"))

/-- `Stream.unzip(n)` as a whole: infer the arity (possibly raising), then
return one stream per index `0 ≤ i < n`, each traversing as `selectColTrav`. -/
def unzip (n : Option Nat) (l : List (List α)) :
    Except PyErr (List (List α × Option PyErr)) :=
  (unzipArity n l).map fun k => (List.range k).map fun i => selectColTrav i l

/-- The item-preview computation of `Stream.__repr__`: with `max_items = 5`,
`item_reprs = list(map(repr, self[:max_items + 1]))` renders up to six items,
and `if len(item_reprs) >= max_items: item_reprs[-1] = '...'` replaces the
last rendered entry by an ellipsis.  `reprFn` stands for Python's `repr`. -/
def reprItems (reprFn : α → String) (l : List α) : List String :=
  let itemReprs := (l.take 6).map reprFn
  if 5 ≤ itemReprs.length then itemReprs.dropLast ++ ["..."] else itemReprs

/-- Call-time validation of `Stream.random_split(frac, seed)`:
`if not 0.0 <= frac <= 1.0: raise ValueError(...)`. -/
def randomSplitCall (frac : ℚ) : Except PyErr Unit :=
  if 0 ≤ frac ∧ frac ≤ 1 then .ok ()
  else .error (.valueError "invalid frac not in 0 1")

/-- One traversal of the first stream returned by `Stream.random_split`:
`generator_func_a` constructs its own `rng = random.Random(seed)` and yields
`(item for item in self if rng.random() <= frac)`, drawing exactly once per
upstream item.  `draw seed k` abstracts the `k`-th value of the deterministic
pseudo-random sequence of a generator freshly seeded with `seed`. -/
def random_split_a (draw : Nat → Nat → ℚ) (seed : Nat) (frac : ℚ)
    (l : List α) : List α :=
  (l.enum.filter fun p => decide (draw seed p.1 ≤ frac)).map Prod.snd

/-- One traversal of the second stream returned by `Stream.random_split`:
`generator_func_b` likewise constructs its own identically seeded generator
and yields `(item for item in self if rng.random() > frac)`. -/
def random_split_b (draw : Nat → Nat → ℚ) (seed : Nat) (frac : ℚ)
    (l : List α) : List α :=
  (l.enum.filter fun p => decide (frac < draw seed p.1)).map Prod.snd

/-- One traversal of `Stream.slice(start, stop, step)`
(`itertools.islice(self, start, stop, step)`) for a non-negative `start`, an
optional `stop` and a `step ≥ 1` (values `islice` accepts): the items at
indices `start, start + step, ...` below `stop`. -/
def isliceList (start : Nat) (stop : Option Nat) (step : Nat) (l : List α) :
    List α :=
  (l.enum.filter fun p =>
      decide (start ≤ p.1) &&
      (match stop with
       | Option.none => true
       | some s => decide (p.1 < s)) &&
      decide ((p.1 - start) % step = 0)).map Prod.snd

/-- One traversal of branch `i` of `Stream.split(n)` (`select_func(i)` is
`(item for j, item in enumerate(self) if ((j-i) % n) == 0)`); Python's `%`
on a positive modulus agrees with `Int.emod`. -/
def splitSel (n i : Nat) (l : List α) : List α :=
  (l.enum.filter fun p =>
      decide ((((p.1 : Int) - (i : Int)) % (n : Int)) = 0)).map Prod.snd

/-- One traversal of `Stream.zip_longest(other, fillvalue)` restricted to two
streams: pairs of items, the shorter side padded.  In Python both pads are
the single `fillvalue` argument; the embedding types them separately. -/
def zipLongestList (fa : α) (fb : β) : List α → List β → List (α × β)
  | [], [] => []
  | x :: xs, [] => (x, fb) :: zipLongestList fa fb xs []
  | [], y :: ys => (fa, y) :: zipLongestList fa fb [] ys
  | x :: xs, y :: ys => (x, y) :: zipLongestList fa fb xs ys
termination_by a b => a.length + b.length

end Stream

/-- A chain of the non-randomized `Stream` combinators applied to a source
stream, read outside-in: the first constructor is the first combinator
applied to the source.  Combinators that take a second stream
(`chain`, `zip`, `zip_longest`) store that stream's factory, invocation
indexed like the source's. -/
inductive Chain : Type → Type → Type 1 where
  | nil : ∀ {α : Type}, Chain α α
  | map : ∀ {α β γ : Type}, (α → β) → Chain β γ → Chain α γ
  | filter : ∀ {α γ : Type}, (α → Bool) → Chain α γ → Chain α γ
  | batch : ∀ {α γ : Type}, Nat → Chain (List α) γ → Chain α γ
  | unbatch : ∀ {α γ : Type}, Chain α γ → Chain (List α) γ
  | chainWith : ∀ {α γ : Type}, (Nat → List α) → Chain α γ → Chain α γ
  | slice : ∀ {α γ : Type}, Nat → Option Nat → Nat → Chain α γ → Chain α γ
  | splitBranch : ∀ {α γ : Type}, Nat → Nat → Chain α γ → Chain α γ
  | unzipCol : ∀ {α γ : Type}, Nat → Chain α γ → Chain (List α) γ
  | zipWith : ∀ {α β γ : Type}, (Nat → List β) → Chain (α × β) γ → Chain α γ
  | zipLongestWith : ∀ {α β γ : Type},
      (Nat → List β) → α → β → Chain (α × β) γ → Chain α γ

namespace Chain

/-- The `k`-th full materialization of a combinator chain over the item list
`l` produced by the `k`-th invocation of the source's factory.  Each
combinator's `generator_func` calls `iter(...)` on its stored upstream
stream(s) afresh on every invocation, so the `k`-th materialization of the
whole chain consumes the `k`-th invocation of every stored factory. -/
def run : Chain α β → Nat → List α → List β
  | .nil, _, l => l
  | .map f c, k, l => c.run k (l.map f)
  | .filter p c, k, l => c.run k (l.filter p)
  | .batch n c, k, l => c.run k (Stream.chunkList n l)
  | .unbatch c, k, l => c.run k (Stream.unbatch l)
  | .chainWith F c, k, l => c.run k (l ++ F k)
  | .slice a b s c, k, l => c.run k (Stream.isliceList a b s l)
  | .splitBranch n i c, k, l => c.run k (Stream.splitSel n i l)
  | .unzipCol i c, k, l => c.run k (l.filterMap fun item => item[i]?)
  | .zipWith F c, k, l => c.run k (l.zip (F k))
  | .zipLongestWith F fa fb c, k, l =>
      c.run k (Stream.zipLongestList fa fb l (F k))

/-- All factories stored inside the chain are repeatably iterable. -/
def reps : Chain α β → Prop
  | .nil => True
  | .map _ c => c.reps
  | .filter _ c => c.reps
  | .batch _ c => c.reps
  | .unbatch c => c.reps
  | .chainWith F c => Repeatable F ∧ c.reps
  | .slice _ _ _ c => c.reps
  | .splitBranch _ _ c => c.reps
  | .unzipCol _ c => c.reps
  | .zipWith F c => Repeatable F ∧ c.reps
  | .zipLongestWith F _ _ c => Repeatable F ∧ c.reps

/-- The `k`-th materialization succeeds without raising: at every `unzipCol`
stage each incoming item is long enough, so no `item[i]` raises `IndexError`
(on this domain `run`'s `filterMap` drops nothing and is exactly the column
selection `(item[i] for item in self)`). -/
def okAll : Chain α β → Nat → List α → Bool
  | .nil, _, _ => true
  | .map f c, k, l => c.okAll k (l.map f)
  | .filter p c, k, l => c.okAll k (l.filter p)
  | .batch n c, k, l => c.okAll k (Stream.chunkList n l)
  | .unbatch c, k, l => c.okAll k (Stream.unbatch l)
  | .chainWith F c, k, l => c.okAll k (l ++ F k)
  | .slice a b s c, k, l => c.okAll k (Stream.isliceList a b s l)
  | .splitBranch n i c, k, l => c.okAll k (Stream.splitSel n i l)
  | .unzipCol i c, k, l =>
      l.all (fun item => decide (i < item.length)) &&
      c.okAll k (l.filterMap fun item => item[i]?)
  | .zipWith F c, k, l => c.okAll k (l.zip (F k))
  | .zipLongestWith F fa fb c, k, l =>
      c.okAll k (Stream.zipLongestList fa fb l (F k))

end Chain

/-- A concrete combinator chain used to instantiate the reentrancy theorem:
`S.map(lambda x: x + 1).batch(2)`, then the 0-th stream of `.unzip(...)`,
then branch 0 of `.split(2)`, then `.chain(T)` with `T = [100]`. -/
def demoChain : Chain Nat Nat :=
  Chain.map (fun x => x + 1)
    (Chain.batch 2
      (Chain.unzipCol 0
        (Chain.splitBranch 2 0
          (Chain.chainWith (fun _ => [100]) Chain.nil))))

/-- A concrete repeatably-iterable source factory: every invocation produces
`[1, 2, 3, 4, 5]`. -/
def demoSource : Nat → List Nat := fun _ => [1, 2, 3, 4, 5]

/-! ## Helper lemmas -/

theorem chain_run_invocation_independent :
    ∀ {α β : Type} (c : Chain α β), c.reps →
      ∀ (i j : Nat) (l : List α), c.run i l = c.run j l := by
  intro α β c
  induction c with
  | nil => intro _ i j l; rfl
  | map f c ih => intro h i j l; exact ih h i j (l.map f)
  | filter p c ih => intro h i j l; exact ih h i j (l.filter p)
  | batch n c ih => intro h i j l; exact ih h i j (Stream.chunkList n l)
  | unbatch c ih => intro h i j l; exact ih h i j (Stream.unbatch l)
  | chainWith F c ih =>
      intro h i j l
      show c.run i (l ++ F i) = c.run j (l ++ F j)
      rw [h.1 i j]
      exact ih h.2 i j (l ++ F j)
  | slice a b s c ih => intro h i j l; exact ih h i j (Stream.isliceList a b s l)
  | splitBranch n k c ih => intro h i j l; exact ih h i j (Stream.splitSel n k l)
  | unzipCol k c ih =>
      intro h i j l; exact ih h i j (l.filterMap fun item => item[k]?)
  | zipWith F c ih =>
      intro h i j l
      show c.run i (l.zip (F i)) = c.run j (l.zip (F j))
      rw [h.1 i j]
      exact ih h.2 i j (l.zip (F j))
  | zipLongestWith F fa fb c ih =>
      intro h i j l
      show c.run i (Stream.zipLongestList fa fb l (F i))
        = c.run j (Stream.zipLongestList fa fb l (F j))
      rw [h.1 i j]
      exact ih h.2 i j (Stream.zipLongestList fa fb l (F j))

theorem chunkFuel_flatten {α : Type} (k : Nat) (hk : 0 < k) :
    ∀ (fuel : Nat) (l : List α), l.length ≤ fuel →
      (Stream.chunkFuel k fuel l).flatten = l
  | fuel, [], _ => by cases fuel <;> rfl
  | 0, x :: xs, h => by simp at h
  | fuel + 1, x :: xs, h => by
      have hkne : k ≠ 0 := Nat.pos_iff_ne_zero.mp hk
      have hlen : ((x :: xs).drop k).length ≤ fuel := by
        simp only [List.length_drop, List.length_cons]
        simp only [List.length_cons] at h
        omega
      rw [Stream.chunkFuel, if_neg hkne, List.flatten_cons,
        chunkFuel_flatten k hk fuel ((x :: xs).drop k) hlen,
        List.take_append_drop]

theorem chunkList_flatten {α : Type} (k : Nat) (hk : 0 < k) (l : List α) :
    (Stream.chunkList k l).flatten = l :=
  chunkFuel_flatten k hk l.length l le_rfl

theorem chunkList_zero {α : Type} (l : List α) : Stream.chunkList 0 l = [] := by
  cases l with
  | nil => rfl
  | cons x xs => rw [Stream.chunkList, List.length_cons, Stream.chunkFuel, if_pos rfl]

theorem selectColTrav_ok {α : Type} (i : Nat) :
    ∀ l : List (List α), (∀ it ∈ l, i < it.length) →
      Stream.selectColTrav i l
        = (l.filterMap (fun it => it[i]?), Option.none)
  | [], _ => rfl
  | it :: rest, h => by
      have hit : i < it.length := h it (List.mem_cons_self _ _)
      have hx : it[i]? = some it[i] := List.getElem?_eq_getElem hit
      have ih := selectColTrav_ok i rest
        (fun a ha => h a (List.mem_cons_of_mem _ ha))
      simp [Stream.selectColTrav, hx, ih, List.filterMap_cons]

theorem selectColTrav_err {α : Type} (i : Nat) :
    ∀ (front : List (List α)) (bad : List α) (rest : List (List α)),
      (∀ it ∈ front, i < it.length) → bad.length ≤ i →
      Stream.selectColTrav i (front ++ bad :: rest)
        = (front.filterMap (fun it => it[i]?),
            some (.indexError "index out of range"))
  | [], bad, rest, _, hbad => by
      have hb : bad[i]? = (Option.none : Option α) := List.getElem?_eq_none hbad
      simp [Stream.selectColTrav, hb]
  | it :: front, bad, rest, h, hbad => by
      have hit : i < it.length := h it (List.mem_cons_self _ _)
      have hx : it[i]? = some it[i] := List.getElem?_eq_getElem hit
      have ih := selectColTrav_err i front bad rest
        (fun a ha => h a (List.mem_cons_of_mem _ ha)) hbad
      simp [Stream.selectColTrav, hx, ih, List.filterMap_cons]

theorem selectColTrav_take {α : Type} (i n : Nat) (hn : i < n) :
    ∀ l : List (List α),
      Stream.selectColTrav i (l.map fun it => it.take n)
        = Stream.selectColTrav i l
  | [] => rfl
  | it :: rest => by
      have htake : (it.take n)[i]? = it[i]? := List.getElem?_take_of_lt hn
      have ih := selectColTrav_take i n hn rest
      cases hx : it[i]? with
      | none => simp [Stream.selectColTrav, htake, hx]
      | some x => simp [Stream.selectColTrav, htake, hx, ih]

/-! ## Claim theorems -/

/-- C7: for every finite sequence `S` and positive integer `k`, traversing
`S.batch(k).unbatch()` yields exactly the items of `S` in order, including
when the length of `S` is not a multiple of `k` (the shorter final group is
flattened transparently). -/
theorem batch_unbatch_roundtrip {α : Type} (k : Nat) (hk : 0 < k)
    (l : List α) : Stream.unbatch (Stream.batch (k : Int) l).1 = l := by
  rw [Stream.batch, if_neg (by omega)]
  show (Stream.chunkList (Int.toNat k) l).flatten = l
  rw [Int.toNat_natCast]
  exact chunkList_flatten k hk l

/-- Witness for C7 at `k = 2`, `S = [1,2,3,4,5]`. -/
theorem batch_unbatch_roundtrip_witness :
    0 < 2 ∧
    Stream.unbatch (Stream.batch (2 : Int) ([1, 2, 3, 4, 5] : List Nat)).1
      = [1, 2, 3, 4, 5] :=
  ⟨by decide, batch_unbatch_roundtrip 2 (by decide) [1, 2, 3, 4, 5]⟩

/-- C3 counterexample: `batch(0)` does not fail at the call (the method body
performs no validation), and even its traversal raises nothing: the batched
stream is silently empty. -/
theorem batch_zero_counterexample :
    Stream.batchCallCheck 0 = .ok () ∧
    Stream.batch 0 ([1, 2, 3] : List Int) = ([], Option.none) := by
  refine ⟨rfl, ?_⟩
  rw [Stream.batch, if_neg (by omega)]
  rw [show Int.toNat 0 = 0 from rfl, chunkList_zero]

/-- C3 amended: `batch(size)` performs no validation of `size` at call time
(constructing the batched stream always succeeds); `batch(0)` silently
yields an empty stream with no error at all, and a negative `size` fails
only lazily at traversal time, with the `ValueError` (InvalidArgument)
raised by `itertools.islice` before any item is produced. -/
theorem batch_call_time_behavior {α : Type} (size : Int) (l : List α) :
    Stream.batchCallCheck size = .ok () ∧
    Stream.batch 0 l = ([], Option.none) ∧
    (size < 0 →
      Stream.batch size l =
        ([], some (.valueError "islice stop must be a non-negative integer")) ∧
      categorize (.valueError "islice stop must be a non-negative integer")
        = .invalidArgument) := by
  refine ⟨rfl, ?_, fun h => ⟨?_, by decide⟩⟩
  · rw [Stream.batch, if_neg (by omega),
      show Int.toNat 0 = 0 from rfl, chunkList_zero]
  · rw [Stream.batch, if_pos h]

/-- Witness for C3's amended claim at `size = -1`, `l = [7]`. -/
theorem batch_call_time_behavior_witness :
    (-1 : Int) < 0 ∧
    Stream.batchCallCheck (-1) = .ok () ∧
    Stream.batch 0 ([7] : List Int) = ([], Option.none) ∧
    (Stream.batch (-1) ([7] : List Int) =
        ([], some (.valueError "islice stop must be a non-negative integer")) ∧
      categorize (.valueError "islice stop must be a non-negative integer")
        = .invalidArgument) :=
  ⟨by decide, (batch_call_time_behavior (-1) [7]).1,
    (batch_call_time_behavior (-1) [7]).2.1,
    (batch_call_time_behavior (-1) [7]).2.2 (by decide)⟩

/-- C2 counterexample: on the stream `[0, False, '', 1]`, `filter()` with no
predicate keeps only `1`: Python's `filter(None, ...)` removes every falsy
item, so the non-`None` values `0`, `False` and `''` are *not* kept, contrary
to the claim. -/
theorem filter_default_counterexample :
    Stream.filter Option.none
        [PyVal.int 0, PyVal.bool false, PyVal.str "", PyVal.int 1]
      = [PyVal.int 1] ∧
    ([PyVal.int 1] : List PyVal) ≠
      [PyVal.int 0, PyVal.bool false, PyVal.str "", PyVal.int 1] := by
  exact ⟨rfl, by decide⟩

/-- C2 amended: `filter` with no predicate keeps exactly the truthy items
(Python `filter(None, ...)` semantics): `None` is removed, but so are all
other falsy values such as `0`, `False` and the empty string. -/
theorem filter_default_truthy (l : List PyVal) (x : PyVal) :
    x ∈ Stream.filter Option.none l ↔ x ∈ l ∧ pyTruthy x = true := by
  simp [Stream.filter, List.mem_filter]

/-- C6 counterexample: `S[-1]` raises
`IndexError('negative indexing not supported')`.  Under the specification's
taxonomy an `IndexError` is an IndexOutOfRange-category error, so the
negative index is *not* rejected with an InvalidArgument error. -/
theorem negative_index_counterexample :
    Stream.getitem (.intIdx (-1)) ([10, 20] : List Int)
      = .error (.indexError "negative indexing not supported") ∧
    categorize (.indexError "negative indexing not supported")
      = .indexOutOfRange ∧
    ErrCategory.indexOutOfRange ≠ ErrCategory.invalidArgument := by
  exact ⟨rfl, rfl, by decide⟩

/-- C6 amended: `S[i]` for `i` at least the traversed length raises
`IndexError('stream index out of range')` (IndexOutOfRange); a negative
index is rejected eagerly, before any traversal, but likewise with an
`IndexError` (`'negative indexing not supported'`) — an
IndexOutOfRange-category error, not an InvalidArgument one. -/
theorem getitem_bounds {α : Type} (l : List α) (i : Int) :
    (0 ≤ i → l.length ≤ i.toNat →
      Stream.getitem (.intIdx i) l
        = .error (.indexError "stream index out of range")) ∧
    (i < 0 →
      Stream.getitem (.intIdx i) l
        = .error (.indexError "negative indexing not supported") ∧
      categorize (.indexError "negative indexing not supported")
        = .indexOutOfRange) := by
  constructor
  · intro h0 hlen
    simp only [Stream.getitem, if_neg (not_lt.mpr h0),
      List.getElem?_eq_none hlen]
  · intro h
    exact ⟨by simp only [Stream.getitem, if_pos h], rfl⟩

/-- Witness for C6's amended claim: `S = [1, 2]`, indices `5` and `-1`. -/
theorem getitem_bounds_witness :
    (0 ≤ (5 : Int) ∧ ([1, 2] : List Nat).length ≤ (5 : Int).toNat ∧
      Stream.getitem (.intIdx 5) ([1, 2] : List Nat)
        = .error (.indexError "stream index out of range")) ∧
    ((-1 : Int) < 0 ∧
      (Stream.getitem (.intIdx (-1)) ([1, 2] : List Nat)
          = .error (.indexError "negative indexing not supported") ∧
        categorize (.indexError "negative indexing not supported")
          = .indexOutOfRange)) :=
  ⟨⟨by decide, by decide, (getitem_bounds [1, 2] 5).1 (by decide) (by decide)⟩,
   ⟨by decide, (getitem_bounds [1, 2] (-1)).2 (by decide)⟩⟩

/-- C10: indexing a stream with a value that is neither an integer nor a
slice raises `TypeError` at once; the result is the same for every
underlying item list — in particular for a stream that has never been
traversed — so the check happens before any traversal is begun.  (Python's
`bool` is a subtype of `int`, so a boolean index does not take this path.) -/
theorem getitem_type_check {α : Type} (l : List α) (typeName : String) :
    Stream.getitem (.otherIdx typeName) l
      = .error (.typeError ("indices must be integers or slices, not "
          ++ typeName)) := rfl

/-- C5 counterexample: `unzip(n=2)` on `[[1], [3, 4]]`, whose first item has
length `1 < n`: the 0-th returned sequence does not fail there — `item[0]`
succeeds for every item, so its whole traversal succeeds with `[1, 3]` —
contrary to the claim that the `i`-th sequence fails at the first item whose
length is less than `n`.  (Only the 1-st sequence fails at that item.) -/
theorem unzip_col_counterexample :
    Stream.unzip (some 2) ([[1], [3, 4]] : List (List Int))
      = .ok [([1, 3], Option.none),
             ([], some (.indexError "index out of range"))] ∧
    (Option.none : Option PyErr) ≠ some (.indexError "index out of range") := by
  exact ⟨rfl, by decide⟩

/-- C5 amended: with `n` omitted, `unzip` on an empty sequence fails with the
EmptyInput `ValueError` at the call, during arity inference; with `n`
determined, the `i`-th returned sequence fails with an IndexOutOfRange error
at the first item whose length is at most `i` (so only the last, `(n-1)`-th,
sequence fails exactly at the first item shorter than `n`), the items before
that point contributing their `i`-th element; items longer than `n` are
silently truncated — positions beyond the first `n` are never inspected. -/
theorem unzip_behavior {α : Type} (i : Nat) (l front rest : List (List α))
    (bad : List α) (hfront : ∀ it ∈ front, i < it.length)
    (hbad : bad.length ≤ i) :
    Stream.unzipArity Option.none ([] : List (List α))
      = .error (.valueError "cannot infer length of items from empty stream") ∧
    categorize (.valueError "cannot infer length of items from empty stream")
      = .emptyInput ∧
    Stream.selectColTrav i (front ++ bad :: rest)
      = (front.filterMap (fun it => it[i]?),
          some (.indexError "index out of range")) ∧
    ((∀ it ∈ l, i < it.length) →
      Stream.selectColTrav i l
        = (l.filterMap (fun it => it[i]?), Option.none)) ∧
    (∀ n, i < n →
      Stream.selectColTrav i (l.map fun it => it.take n)
        = Stream.selectColTrav i l) :=
  ⟨rfl, rfl, selectColTrav_err i front bad rest hfront hbad,
    fun h => selectColTrav_ok i l h,
    fun n hn => selectColTrav_take i n hn l⟩

/-- Witness for C5's amended claim at `i = 1`, with a well-formed stream
`[[1, 2], [3, 4]]` and an erroring one `[[1, 2], [9], [5, 6]]`. -/
theorem unzip_behavior_witness :
    (∀ it ∈ ([[1, 2]] : List (List Int)), 1 < it.length) ∧
    ([9] : List Int).length ≤ 1 ∧
    Stream.unzipArity Option.none ([] : List (List Int))
      = .error (.valueError "cannot infer length of items from empty stream") ∧
    categorize (.valueError "cannot infer length of items from empty stream")
      = .emptyInput ∧
    Stream.selectColTrav 1 (([[1, 2]] : List (List Int)) ++ [9] :: [[5, 6]])
      = (([[1, 2]] : List (List Int)).filterMap (fun it => it[1]?),
          some (.indexError "index out of range")) ∧
    Stream.selectColTrav 1 ([[1, 2], [3, 4]] : List (List Int))
      = (([[1, 2], [3, 4]] : List (List Int)).filterMap (fun it => it[1]?),
          Option.none) ∧
    Stream.selectColTrav 1
        (([[1, 2], [3, 4]] : List (List Int)).map fun it => it.take 2)
      = Stream.selectColTrav 1 ([[1, 2], [3, 4]] : List (List Int)) :=
  ⟨by decide, by decide,
    (unzip_behavior 1 [[1, 2], [3, 4]] [[1, 2]] [[5, 6]] [9]
      (by decide) (by decide)).1,
    (unzip_behavior 1 [[1, 2], [3, 4]] [[1, 2]] [[5, 6]] [9]
      (by decide) (by decide)).2.1,
    (unzip_behavior 1 [[1, 2], [3, 4]] [[1, 2]] [[5, 6]] [9]
      (by decide) (by decide)).2.2.1,
    (unzip_behavior 1 [[1, 2], [3, 4]] [[1, 2]] [[5, 6]] [9]
      (by decide) (by decide)).2.2.2.1 (by decide),
    (unzip_behavior 1 [[1, 2], [3, 4]] [[1, 2]] [[5, 6]] [9]
      (by decide) (by decide)).2.2.2.2 2 (by decide)⟩

/-- C8 (code bug at the boundary): the `__repr__` preview fetches the reprs
of up to `max_items + 1 = 6` items, but the ellipsis condition is
`len(item_reprs) >= max_items`, which already holds for exactly five items:
the fifth item's repr is then replaced by `'...'` even though no sixth item
exists, so a five-item stream is previewed as four items plus an ellipsis —
although the code's own comment says the `+1`-th element is fetched only "as
an easy way to identify if there are more".  Four items or fewer are shown
in full, and six or more show the first five followed by the ellipsis. -/
theorem repr_preview_boundary :
    Stream.reprItems id ["a", "b", "c", "d", "e"]
      = ["a", "b", "c", "d", "..."] ∧
    Stream.reprItems id ["a", "b", "c", "d"] = ["a", "b", "c", "d"] ∧
    Stream.reprItems id ["a", "b", "c", "d", "e", "f", "g"]
      = ["a", "b", "c", "d", "e", "..."] := by
  exact ⟨rfl, rfl, rfl⟩

/-- C1: for a sequence built from a repeatably-iterable source and any chain
of the non-randomized combinators (`map`, `filter`, `batch`, `unbatch`,
`chain`, `slice`, `split`, `unzip`, `zip`, `zip_longest`), two full
materializations — the `i`-th and `j`-th invocations of the resulting
factory — yield identical item lists.  Every combinator stores factories and
parameters only and each of its traversals re-invokes `iter(...)` on the
stored upstream stream(s) (this is where `run` consumes invocation `k` of
every stored factory), so no traversal consumes or mutates a stored factory;
the hypothesis `okAll` restricts to materializations on which no `item[i]`
of an `unzip` column raises, i.e. those that produce a complete item list. -/
theorem chain_reentrant {α β : Type} (c : Chain α β) (F : Nat → List α)
    (hF : Repeatable F) (hreps : c.reps)
    (_hok : ∀ k, c.okAll k (F k) = true) (i j : Nat) :
    c.run i (F i) = c.run j (F j) := by
  rw [hF i j]
  exact chain_run_invocation_independent c hreps i j (F j)

/-- Witness for C1: the concrete chain `demoChain` over the repeatable
source `demoSource`, comparing invocations 3 and 8. -/
theorem chain_reentrant_witness :
    Repeatable demoSource ∧ demoChain.reps ∧
    (∀ k, demoChain.okAll k (demoSource k) = true) ∧
    demoChain.run 3 (demoSource 3) = demoChain.run 8 (demoSource 8) :=
  ⟨fun _ _ => rfl, ⟨fun _ _ => rfl, trivial⟩, fun _ => rfl,
    chain_reentrant demoChain demoSource (fun _ _ => rfl)
      ⟨fun _ _ => rfl, trivial⟩ (fun _ => rfl) 3 8⟩

/-- C4: for `frac ∈ [0, 1]` and any seed, `random_split` validates `frac`
successfully at the call, and each returned branch assigns items identically
on every repeated traversal of the same constructed pair: each traversal of
a branch rebuilds its own generator from the stored seed
(`rng = random.Random(seed)` inside the branch's `generator_func`), so a
branch's materialization is a pure function of the stored seed, `frac` and
the upstream items alone — independent of the invocation index and, in
particular, unaffected by whether or how often the other branch (which owns
a separate, identically seeded generator) has been traversed. -/
theorem random_split_reentrant {α : Type} (draw : Nat → Nat → ℚ) (seed : Nat)
    (frac : ℚ) (hfrac : 0 ≤ frac ∧ frac ≤ 1) (F : Nat → List α)
    (hF : Repeatable F) (i j : Nat) :
    Stream.randomSplitCall frac = .ok () ∧
    Stream.random_split_a draw seed frac (F i)
      = Stream.random_split_a draw seed frac (F j) ∧
    Stream.random_split_b draw seed frac (F i)
      = Stream.random_split_b draw seed frac (F j) := by
  refine ⟨?_, by rw [hF i j], by rw [hF i j]⟩
  rw [Stream.randomSplitCall, if_pos hfrac]

/-- Witness for C4 at `frac = 1/2`, `seed = 1`, a concrete draw sequence and
the constant source `[1, 2, 3]`, invocations 0 and 7. -/
theorem random_split_reentrant_witness :
    (0 ≤ (1 : ℚ) / 2 ∧ (1 : ℚ) / 2 ≤ 1) ∧
    Repeatable (fun _ : Nat => ([1, 2, 3] : List Nat)) ∧
    (Stream.randomSplitCall (1 / 2) = .ok () ∧
      Stream.random_split_a (fun s k => (((s + k) % 3 : Nat) : ℚ) / 3) 1
          (1 / 2) [1, 2, 3]
        = Stream.random_split_a (fun s k => (((s + k) % 3 : Nat) : ℚ) / 3) 1
          (1 / 2) [1, 2, 3] ∧
      Stream.random_split_b (fun s k => (((s + k) % 3 : Nat) : ℚ) / 3) 1
          (1 / 2) [1, 2, 3]
        = Stream.random_split_b (fun s k => (((s + k) % 3 : Nat) : ℚ) / 3) 1
          (1 / 2) [1, 2, 3]) :=
  ⟨⟨by norm_num, by norm_num⟩, fun _ _ => rfl,
    random_split_reentrant (fun s k => (((s + k) % 3 : Nat) : ℚ) / 3) 1
      (1 / 2) ⟨by norm_num, by norm_num⟩
      (fun _ : Nat => ([1, 2, 3] : List Nat)) (fun _ _ => rfl) 0 7⟩

/-- C9: with a fixed seed, the two branches of one `random_split` call
exactly partition the upstream items: each branch builds an identically
seeded generator per traversal and draws exactly once per upstream item, so
the two per-item accept tests (`rng.random() <= frac` and
`rng.random() > frac`) are applied to the *same* draw and are exact
complements — the two branch traversals together are a permutation of the
upstream items, each item going to exactly one branch. -/
theorem random_split_partition {α : Type} (draw : Nat → Nat → ℚ) (seed : Nat)
    (frac : ℚ) (_hfrac : 0 ≤ frac ∧ frac ≤ 1) (l : List α) :
    (Stream.random_split_a draw seed frac l
      ++ Stream.random_split_b draw seed frac l).Perm l := by
  unfold Stream.random_split_a Stream.random_split_b
  rw [← List.map_append]
  have hcompl :
      l.enum.filter (fun p => decide (frac < draw seed p.1))
        = l.enum.filter (fun p => ! decide (draw seed p.1 ≤ frac)) := by
    apply List.filter_congr
    intro p _
    by_cases h : draw seed p.1 ≤ frac
    · simp [h, not_lt.mpr h]
    · simp [h, not_le.mp h]
  rw [hcompl]
  have hperm :=
    (List.filter_append_perm (fun p => decide (draw seed p.1 ≤ frac))
      l.enum).map Prod.snd
  rwa [List.enum_map_snd] at hperm

/-- Witness for C9 at `frac = 1/2`, `seed = 1`, a concrete draw sequence and
the items `[10, 20, 30]`. -/
theorem random_split_partition_witness :
    (0 ≤ (1 : ℚ) / 2 ∧ (1 : ℚ) / 2 ≤ 1) ∧
    (Stream.random_split_a (fun s k => (((s + k) % 3 : Nat) : ℚ) / 3) 1
        (1 / 2) ([10, 20, 30] : List Nat)
      ++ Stream.random_split_b (fun s k => (((s + k) % 3 : Nat) : ℚ) / 3) 1
        (1 / 2) ([10, 20, 30] : List Nat)).Perm [10, 20, 30] :=
  ⟨⟨by norm_num, by norm_num⟩,
    random_split_partition (fun s k => (((s + k) % 3 : Nat) : ℚ) / 3) 1
      (1 / 2) ⟨by norm_num, by norm_num⟩ [10, 20, 30]⟩
